import Mathlib

/-
Verification of the solx EVM build aggregation, linking and emission pipeline
(src/solx/src/build_evm/mod.rs) and of the Yul expression lowering dispatch
(src/solx/src/yul/parser/statement/expression/mod.rs).

Conventions of the embedding:
- Rust panics (`expect`, `panic!`-like aborts) are modelled as `none` / failure
  of an `Option`-valued function: a `none` result means the original program
  aborts the whole process at that point and produces no observable result.
- Rust `BTreeMap` values iterated with `values`/`values_mut`/`into_values` are
  modelled as association lists in iteration order.
- Machine byte vectors are `List Nat`; their contents are opaque to the code
  under verification.
- External collaborators (the `era_compiler_llvm_context::evm_link` linker, the
  `normpath` path normalization, the `solx_solc` diagnostic type) are modelled
  explicitly; each such definition carries a comment saying what it models.
-/

/-- Splits a character list at every occurrence of `c`, mirroring Rust
`str::split(c)`: the result always has at least one (possibly empty) piece. -/
def splitChar (c : Char) : List Char → List (List Char)
  | [] => [[]]
  | x :: xs =>
    if x = c then [] :: splitChar c xs
    else
      match splitChar c xs with
      | [] => [[x]]
      | y :: ys => (x :: y) :: ys

/-- True when the string starts with a path separator, i.e. is absolute. -/
def isAbsPath (p : String) : Bool :=
  match p.data with
  | [] => false
  | c :: _ => c = '/'

/-- Resolves `.` and `..` segments and drops empty segments (repeated or
trailing separators), left to right, like path canonicalization does. -/
def normSegs (segs : List String) : List String :=
  segs.foldl
    (fun acc s =>
      if s = "" then acc
      else if s = "." then acc
      else if s = ".." then acc.dropLast
      else acc ++ [s])
    []

/-- Renders resolved segments as an absolute path string. -/
def joinSegs : List String → String
  | [] => ""
  | [s] => s
  | s :: rest => s ++ "/" ++ joinSegs rest

/-- Renders resolved segments as an absolute path string rooted at `/`. -/
def renderAbs (segs : List String) : String :=
  "/" ++ joinSegs segs

/-- The filesystem environment seen by path normalization: the resolved
segments of the current working directory, and which resolved absolute paths
exist on disk. -/
structure FS where
  cwd : List String
  present : List String → Bool

/-- The resolved absolute segment list of `p` in environment `fs`: relative
paths are interpreted against the current directory, then `.`/`..` and empty
segments are resolved textually. -/
def absResolve (fs : FS) (p : String) : List String :=
  normSegs ((if isAbsPath p then [] else fs.cwd) ++ (splitChar '/' p.data).map String.mk)

/-- Models the external `normpath::PathExt::normalize` call used by
`Build::normalize_full_path`. Per the crate's documented behavior on Unix it
acts like `std::fs::canonicalize`: it accesses the file system, fails when the
path does not exist, and returns an absolute path with `.`/`..` and separator
redundancy resolved (symbolic links are not modelled). -/
def normpathNormalize (fs : FS) (p : String) : Option String :=
  if fs.present (absResolve fs p) then some (renderAbs (absResolve fs p)) else none

/-- Rust `String::ends_with` for string arguments. -/
def strEndsWith (s suffix : String) : Bool :=
  List.isSuffixOf suffix.data s.data

/-- A diagnostic message (`solx_solc::StandardJsonOutputError`): the code under
verification only inspects its `severity` string; the rest is summarized by a
`text` payload. -/
structure OutputError where
  severity : String
  text : String
deriving DecidableEq

/-- Modelled from the spec: `solx_solc::StandardJsonOutputError::new_error`
(solx_solc crate, not under src/) builds a diagnostic of severity error from a
link or compilation failure. -/
def OutputError.new_error (text : String) : OutputError :=
  ⟨"error", text⟩

/-- The `era_compiler_common::ObjectFormat` tag: `ELF` is an unlinked object
with unresolved symbols (the spec's `Unlinked`), `Raw` is final linked
bytecode (the spec's `Final`). -/
inductive ObjectFormat
  | ELF
  | Raw
deriving DecidableEq

/-- The contract identifier triple (`era_compiler_common::ContractName` as used
by the build): source path, optional contract name, and the derived
`full_path`. -/
structure ContractName where
  path : String
  name : Option String
  full_path : String
deriving DecidableEq

/-- Modelled from the spec: the per-contract artifact
(src/solx/src/build_evm/contract.rs, not under src/): link-time identifiers,
deploy and runtime byte sequences, and the object-format tag. Only the fields
read by src/solx/src/build_evm/mod.rs are modelled. -/
structure Contract where
  name : ContractName
  deploy_identifier : String
  runtime_identifier : String
  deploy_build : List Nat
  runtime_build : List Nat
  object_format : ObjectFormat
deriving DecidableEq

/-- One entry of the build results map:
`Result<Contract, StandardJsonOutputError>`. -/
inductive BuildResult
  | ok (c : Contract)
  | err (e : OutputError)
deriving DecidableEq

/-- The build aggregator (`Build`): the ordered results map (association list
in `BTreeMap` iteration order) and the auxiliary message list. -/
structure Build where
  results : List (String × BuildResult)
  messages : List OutputError
deriving DecidableEq

/-- `Build::errors` (via the `CollectableError` impl): every terminal
per-contract diagnostic followed by every auxiliary message whose severity is
the string "error". -/
def Build.errors (b : Build) : List OutputError :=
  (b.results.filterMap fun p =>
    match p.2 with
    | BuildResult.err e => some e
    | BuildResult.ok _ => none)
  ++ b.messages.filter fun m => m.severity == "error"

/-- `Build::take_warnings`: returns the auxiliary messages with severity
"warning" and retains only the messages whose severity is not "warning". -/
def Build.take_warnings (b : Build) : List OutputError × Build :=
  (b.messages.filter fun m => m.severity == "warning",
   ⟨b.results, b.messages.filter fun m => !(m.severity == "warning")⟩)

/-- The linker symbol table (`BTreeMap<String, [u8; 20]>`): library names
mapped to address bytes. -/
abbrev LinkerSymbols : Type :=
  List (String × List Nat)

/-- The type of the external `era_compiler_llvm_context::evm_link` function:
it receives the (identifier, bytes) pairs of the deploy and runtime objects and
the symbol table, and either fails with an error or returns the linked deploy
bytes, linked runtime bytes and the resulting object format. The embedding is
parametric in this function; no assumption is made about its behavior. -/
abbrev EvmLinker : Type :=
  (String × List Nat) → (String × List Nat) → LinkerSymbols →
    Except String (List Nat × List Nat × ObjectFormat)

/-- One iteration of the `Build::link` loop for a single results entry.
`none` models the panic of `expect("Cannot link a project with errors")` on a
terminal-error entry. For an artifact: a non-ELF object format is skipped
untouched; an ELF artifact is passed to `evm_link`, and on failure the entry is
left untouched while one diagnostic built by `new_error` is emitted, on success
both byte sequences are replaced and the object format is updated. -/
def linkEntry (evmLink : EvmLinker) (syms : LinkerSymbols) (k : String) :
    BuildResult → Option ((String × BuildResult) × List OutputError)
  | BuildResult.err _ => none
  | BuildResult.ok c =>
    match c.object_format with
    | ObjectFormat.Raw => some ((k, BuildResult.ok c), [])
    | ObjectFormat.ELF =>
      match evmLink (c.deploy_identifier, c.deploy_build)
          (c.runtime_identifier, c.runtime_build) syms with
      | Except.error e => some ((k, BuildResult.ok c), [OutputError.new_error e])
      | Except.ok (d, r, fmt) =>
        some ((k, BuildResult.ok
          ⟨c.name, c.deploy_identifier, c.runtime_identifier, d, r, fmt⟩), [])

/-- The `Build::link` loop over the whole results map in iteration order,
returning the updated entries and the diagnostics pushed onto the message
list; `none` models a panic during the loop. -/
def linkResults (evmLink : EvmLinker) (syms : LinkerSymbols) :
    List (String × BuildResult) → Option (List (String × BuildResult) × List OutputError)
  | [] => some ([], [])
  | (k, r) :: rest =>
    match linkEntry evmLink syms k r with
    | none => none
    | some (q, ms1) =>
      match linkResults evmLink syms rest with
      | none => none
      | some (rs, ms2) => some (q :: rs, ms1 ++ ms2)

/-- `Build::link`: links every ELF artifact in place and appends the collected
link-failure diagnostics to the message list. -/
def Build.link (evmLink : EvmLinker) (syms : LinkerSymbols) (b : Build) :
    Option Build :=
  match linkResults evmLink syms b.results with
  | none => none
  | some (rs, ms) => some ⟨rs, b.messages ++ ms⟩

/-- An observable output action of an emission call, in order of occurrence:
a surfaced warning, the fatal report-errors-and-terminate exit, a per-contract
artifact written to the sink, or an informational notice. -/
inductive Event
  | warn (m : OutputError)
  | fatal (errors : List OutputError)
  | writeContract (full_path : String)
  | notice (text : String)
deriving DecidableEq

/-- The per-contract artifact-writing loop shared by the terminal and
directory emitters: `expect("Always valid")` on a terminal-error entry is a
panic, modelled as `none`. -/
def writeAll : List (String × BuildResult) → Option (List Event)
  | [] => some []
  | (_, BuildResult.err _) :: _ => none
  | (p, BuildResult.ok _) :: rest =>
    match writeAll rest with
    | none => none
    | some es => some (Event.writeContract p :: es)

/-- `Build::write_to_terminal`. Modelled from the spec for the parts outside
src/: `take_and_write_warnings` (solx_solc `CollectableError` default method)
drains the warnings via `take_warnings` and surfaces each of them, and
`exit_on_error` reports `errors()` and terminates the process when non-empty;
both are modelled as the leading events of the trace. The per-contract
section printing lives in contract.rs (not under src/) and is summarized by
one `writeContract` event per entry. -/
def Build.write_to_terminal (b : Build)
    (output_metadata output_assembly output_binary : Bool) :
    Option (List Event) :=
  match b.take_warnings with
  | (ws, b2) =>
    if b2.errors.isEmpty then
      if !output_metadata && !output_assembly && !output_binary then
        some (ws.map Event.warn ++
          [Event.notice "Compiler run successful. No output requested. Use flags --metadata, --asm, --bin."])
      else
        match writeAll b2.results with
        | none => none
        | some es => some (ws.map Event.warn ++ es)
    else some (ws.map Event.warn ++ [Event.fatal b2.errors])

/-- `Build::write_to_directory`: the same warn-then-fail-fast prologue as the
terminal emitter, then one file set per contract and a closing success notice
naming the directory. Directory creation and the per-file flags are external
filesystem effects and are not modelled beyond the write events. -/
def Build.write_to_directory (b : Build) (output_directory : String)
    (output_metadata output_assembly output_binary overwrite : Bool) :
    Option (List Event) :=
  match b.take_warnings with
  | (ws, b2) =>
    if b2.errors.isEmpty then
      match writeAll b2.results with
      | none => none
      | some es =>
        some (ws.map Event.warn ++ es ++
          [Event.notice ("Compiler run successful. Artifact(s) can be found in directory " ++ output_directory ++ ".")])
    else some (ws.map Event.warn ++ [Event.fatal b2.errors])

/-- One leaf entry of the standard JSON output
(`solx_solc::StandardJsonOutputContract`, not under src/): its sections are
summarized by the `full_path` of the build that last wrote them, `none` for a
default (empty) entry. -/
structure SJContract where
  filled_by : Option String
deriving DecidableEq

/-- The standard JSON output document (`solx_solc::StandardJsonOutput`, not
under src/), as used by `Build::write_to_standard_json`: a two-level keyed
structure (source path, then contract name), a document-level error list and
the two version fields. -/
structure StandardJsonOutput where
  contracts : List (String × List (String × SJContract))
  errors : List OutputError
  version : Option String
  long_version : Option String
deriving DecidableEq

/-- Association-list lookup by key, mirroring `BTreeMap::get`. -/
def assocFind {α : Type} (l : List (String × α)) (key : String) : Option α :=
  match l with
  | [] => none
  | q :: rest => if q.1 = key then some q.2 else assocFind rest key

/-- Replaces the value of the first entry with the given key. -/
def updateFirst {α : Type} (l : List (String × α)) (key : String) (v : α) :
    List (String × α) :=
  match l with
  | [] => []
  | q :: rest => if q.1 = key then (q.1, v) :: rest else q :: updateFirst rest key v

/-- Applies a function to the value of the first entry with the given key. -/
def updateFirstWith {α : Type} (l : List (String × α)) (key : String) (f : α → α) :
    List (String × α) :=
  match l with
  | [] => []
  | q :: rest =>
    if q.1 = key then (q.1, f q.2) :: rest else q :: updateFirstWith rest key f

/-- The per-contract step of `Build::write_to_standard_json`: locate the entry
keyed first by `path`, then by `name` (or by `path` again when the name is
absent); when present the sections are written into it, otherwise a default
entry is created under `entry(path)` and inserted under the inner key. -/
def sjInsert (contracts : List (String × List (String × SJContract)))
    (path key : String) (filled : SJContract) :
    List (String × List (String × SJContract)) :=
  match assocFind contracts path with
  | none => contracts ++ [(path, [(key, filled)])]
  | some inner =>
    match assocFind inner key with
    | some _ => updateFirstWith contracts path (fun l => updateFirst l key filled)
    | none => updateFirstWith contracts path (fun l => l ++ [(key, filled)])

/-- `Build::write_to_standard_json`: no warning draining and no fatal error
check happen in this mode. Terminal-error entries are collected and appended
to the document's own error list; artifacts are written into the entry located
or created by `sjInsert`; the version fields are set when a solc version is
given. The call always returns normally with an empty event trace. -/
def Build.write_to_standard_json (b : Build) (standard_json : StandardJsonOutput)
    (solc_version : Option (String × String)) :
    Option (List Event × StandardJsonOutput) :=
  match b.results.foldl
      (fun (acc : List (String × List (String × SJContract)) × List OutputError) p =>
        match p.2 with
        | BuildResult.err e => (acc.1, acc.2 ++ [e])
        | BuildResult.ok c =>
          (sjInsert acc.1 c.name.path
            (match c.name.name with
             | some n => n
             | none => c.name.path)
            ⟨some c.name.full_path⟩, acc.2))
      (standard_json.contracts, []) with
  | (contracts2, errs) =>
    some ([],
      ⟨contracts2, standard_json.errors ++ errs,
       match solc_version with
       | some v => some v.1
       | none => standard_json.version,
       match solc_version with
       | some v => some v.2
       | none => standard_json.long_version⟩)

/-- `Build::normalize_full_path`: splits the key on the first colon into the
path part and the name part (dropping anything after a second colon), runs the
external `normpath` normalization on the path part, and reassembles
`normalized_path + ":" + name_part`. `none` models the two panics: the
`expect` when the key has no colon, and the `expect("Path normalization
error")` when `normpath` fails. -/
def normalize_full_path (fs : FS) (path : String) : Option String :=
  match splitChar ':' path.data with
  | [] => none
  | [_] => none
  | p :: n :: _ =>
    match normpathNormalize fs (String.mk p) with
    | none => none
    | some q => some (q ++ ":" ++ String.mk n)

/-- One entry of the combined JSON document
(`solx_solc::CombinedJsonContract`, not under src/): its sections are
summarized by the `full_path` of the build written into it. -/
structure CJContract where
  filled_by : Option String
deriving DecidableEq

/-- The suffix-match search of `Build::write_to_combined_json` over the
existing combined JSON entries in document order, updating the first entry
whose normalized key is a string suffix of the contract's normalized full path
in place. Results: `none` is a normalization panic, `some none` means no entry
matched, `some (some doc)` is the updated document. -/
def combinedMatchUpdate (fs : FS) (full_path : String) (filled : CJContract) :
    List (String × CJContract) → Option (Option (List (String × CJContract)))
  | [] => some none
  | (json_path, entry) :: rest =>
    match normalize_full_path fs full_path, normalize_full_path fs json_path with
    | some nfp, some njp =>
      if strEndsWith nfp njp then some (some ((json_path, filled) :: rest))
      else
        match combinedMatchUpdate fs full_path filled rest with
        | none => none
        | some none => some none
        | some (some rest2) => some (some ((json_path, entry) :: rest2))
    | _, _ => none

/-- The per-contract loop of `Build::write_to_combined_json`: each artifact is
written into the first suffix-matched existing entry, or into a fresh entry
keyed by its own unnormalized `full_path` when nothing matches. Modelled from
the spec for the document shape (solx_solc, not under src/): a keyed structure
iterated and extended in document order. A terminal-error entry is the
`expect("Exits on an error above")` panic, unreachable after the fatal check. -/
def combinedProcess (fs : FS) :
    List (String × BuildResult) → List (String × CJContract) →
      Option (List (String × CJContract))
  | [], doc => some doc
  | (_, BuildResult.err _) :: _, _ => none
  | (_, BuildResult.ok c) :: rest, doc =>
    match combinedMatchUpdate fs c.name.full_path ⟨some c.name.full_path⟩ doc with
    | none => none
    | some (some doc2) => combinedProcess fs rest doc2
    | some none =>
      combinedProcess fs rest (doc ++ [(c.name.full_path, ⟨some c.name.full_path⟩)])

/-- `Build::write_to_combined_json`: the warn-then-fail-fast prologue (the
same modelling as for the terminal emitter), then the suffix-matched merge of
every artifact into the combined JSON document. -/
def Build.write_to_combined_json (fs : FS) (b : Build)
    (combined_json : List (String × CJContract)) :
    Option (List Event × List (String × CJContract)) :=
  match b.take_warnings with
  | (ws, b2) =>
    if b2.errors.isEmpty then
      match combinedProcess fs b2.results combined_json with
      | none => none
      | some doc2 => some (ws.map Event.warn, doc2)
    else some (ws.map Event.warn ++ [Event.fatal b2.errors], combined_json)

/-- An identifier occurrence in the Yul AST
(`solx_yul::...::Identifier`): its rendered source location and its name. -/
structure Identifier where
  location : String
  inner : String
deriving DecidableEq

/-- The Yul expression AST
(`solx_yul::yul::parser::statement::expression::Expression`): a literal (its
location and textual form), an identifier reference, or a function call (its
lowering lives in function_call.rs, not under src/, so its payload is kept
opaque). -/
inductive Expression
  | literal (location : String) (inner : String)
  | identifier (id : Identifier)
  | functionCall (call : String)
deriving DecidableEq

/-- Modelled from the spec: the current function's lexical environment inside
`era_compiler_llvm_context` (external crate) - a stack of per-block
name-to-stack-slot scopes, innermost first (spec 4.1). -/
structure FunctionCtx where
  stack : List (List (String × Nat))
deriving DecidableEq

/-- Modelled from the spec: `Function::get_stack_pointer` resolves a name by
searching the scope stack innermost-to-outermost and returning the nearest
binding. -/
def FunctionCtx.get_stack_pointer (f : FunctionCtx) (name : String) : Option Nat :=
  f.stack.findSome? fun scope => List.lookup name scope

/-- One emitted IR instruction; only the stack load emitted by identifier
lowering is relevant here. -/
inductive IRInstr
  | load (ptr : Nat) (name : String) (result : Nat)
deriving DecidableEq

/-- The lowering context (`era_compiler_llvm_context::EVMContext`): the
current function's lexical environment, the instructions emitted so far, and a
fresh-value counter. -/
structure Ctx where
  current_function : FunctionCtx
  instructions : List IRInstr
  next_value : Nat
deriving DecidableEq

/-- Modelled from the spec: `Context::build_load` (external crate) emits one
load instruction from the given pointer and returns the loaded value. -/
def Ctx.build_load (ctx : Ctx) (ptr : Nat) (name : String) : Nat × Ctx :=
  (ctx.next_value,
   ⟨ctx.current_function,
    ctx.instructions ++ [IRInstr.load ptr name ctx.next_value],
    ctx.next_value + 1⟩)

/-- The lowerings delegated to modules not under src/: literal.rs (which can
fail with the error wrapped by the `Invalid literal` message) and
function_call.rs. The embedding is parametric in both. -/
structure ExternalLowering where
  literalIntoLlvm : String → Ctx → Except String (Nat × Ctx)
  functionCallIntoLlvm : String → Ctx → Except String (Option Nat × Ctx)

/-- `Expression::into_llvm`
(src/solx/src/yul/parser/statement/expression/mod.rs): dispatches on the
expression variant. A literal is lowered by literal.rs with its error mapped
to the located `Invalid literal` message; an identifier is resolved through
`get_stack_pointer`, failing with the located `Undeclared variable` message
when no scope binds the name, and otherwise loading from the resolved slot and
yielding the loaded value; a function call is delegated to function_call.rs. -/
def Expression.into_llvm (ext : ExternalLowering) (ctx : Ctx) :
    Expression → Except String (Option Nat × Ctx)
  | Expression.literal loc text =>
    match ext.literalIntoLlvm text ctx with
    | Except.error e =>
      Except.error (loc ++ " Invalid literal `" ++ text ++ "`: " ++ e)
    | Except.ok (v, ctx2) => Except.ok (some v, ctx2)
  | Expression.identifier id =>
    match ctx.current_function.get_stack_pointer id.inner with
    | none =>
      Except.error (id.location ++ " Undeclared variable `" ++ id.inner ++ "`")
    | some ptr =>
      match ctx.build_load ptr id.inner with
      | (v, ctx2) => Except.ok (some v, ctx2)
  | Expression.functionCall call => ext.functionCallIntoLlvm call ctx

/-- Retaining the non-warning messages leaves the messages of any other fixed
severity untouched. -/
lemma filter_retain_severity (s : String) (hs : s ≠ "warning")
    (msgs : List OutputError) :
    (msgs.filter fun m => !(m.severity == "warning")).filter
        (fun m => m.severity == s)
      = msgs.filter fun m => m.severity == s := by
  induction msgs with
  | nil => rfl
  | cons m ms ih =>
    by_cases hw : m.severity = "warning"
    · have h1 : (m.severity == "warning") = true := by simp [hw]
      have h2 : (m.severity == s) = false := by
        simp only [hw, beq_eq_false_iff_ne]
        exact fun h => hs h.symm
      simp [List.filter_cons, h1, h2, ih]
    · have h1 : (m.severity == "warning") = false := by
        simp only [beq_eq_false_iff_ne]
        exact hw
      simp [List.filter_cons, h1, ih]

/-- Draining the warnings changes neither the terminal diagnostics nor the
severity-error auxiliary messages, hence not the result of `errors`. -/
lemma errors_after_take (b : Build) : (b.take_warnings).2.errors = b.errors := by
  unfold Build.take_warnings Build.errors
  exact congrArg _ (filter_retain_severity "error" (by decide) b.messages)

/-- Claim C7: `errors()` returns exactly the terminal per-contract diagnostics
followed by the auxiliary messages of severity error, and it is empty if and
only if every results entry holds an artifact and no auxiliary message has
severity error. -/
theorem c7_errors_characterization (b : Build) :
    b.errors =
      (b.results.filterMap fun p =>
        match p.2 with
        | BuildResult.err e => some e
        | BuildResult.ok _ => none)
      ++ b.messages.filter (fun m => m.severity == "error")
    ∧ (b.errors = [] ↔
        (∀ p ∈ b.results, ∃ c, p.2 = BuildResult.ok c)
        ∧ ∀ m ∈ b.messages, ¬ m.severity = "error") := by
  refine ⟨rfl, ?_⟩
  unfold Build.errors
  rw [List.append_eq_nil]
  constructor
  · rintro ⟨h1, h2⟩
    refine ⟨fun p hp => ?_, fun m hm => ?_⟩
    · have hnone := List.filterMap_eq_nil.mp h1 p hp
      cases hq : p.2 with
      | ok c => exact ⟨c, rfl⟩
      | err e => rw [hq] at hnone; simp at hnone
    · have hnot := List.filter_eq_nil.mp h2 m hm
      simpa using hnot
  · rintro ⟨h1, h2⟩
    constructor
    · refine List.filterMap_eq_nil.mpr fun p hp => ?_
      obtain ⟨c, hc⟩ := h1 p hp
      rw [hc]
    · refine List.filter_eq_nil.mpr fun m hm => ?_
      simpa using h2 m hm

/-- Claim C8: `take_warnings()` returns exactly the severity-warning auxiliary
messages and removes them, leaving the results map and the severity-error and
severity-info messages untouched; a second consecutive call returns an empty
sequence. -/
theorem c8_take_warnings_spec (b : Build) :
    (b.take_warnings).1 = b.messages.filter (fun m => m.severity == "warning")
    ∧ (∀ m ∈ (b.take_warnings).1, m.severity = "warning")
    ∧ (b.take_warnings).2.results = b.results
    ∧ (b.take_warnings).2.messages.filter (fun m => m.severity == "error")
        = b.messages.filter (fun m => m.severity == "error")
    ∧ (b.take_warnings).2.messages.filter (fun m => m.severity == "info")
        = b.messages.filter (fun m => m.severity == "info")
    ∧ ((b.take_warnings).2.take_warnings).1 = [] := by
  refine ⟨rfl, fun m hm => ?_, rfl,
    filter_retain_severity "error" (by decide) b.messages,
    filter_retain_severity "info" (by decide) b.messages, ?_⟩
  · have := (List.mem_filter.mp hm).2
    simpa using this
  · refine List.filter_eq_nil.mpr fun m hm => ?_
    have := (List.mem_filter.mp hm).2
    simp only [Bool.not_eq_true'] at this
    simp [this]


/-- Linking a single artifact entry never panics: only terminal-error entries
trigger the `expect`. -/
lemma linkEntry_ok_some (ev : EvmLinker) (sy : LinkerSymbols) (k : String)
    (c : Contract) :
    ∃ out, linkEntry ev sy k (BuildResult.ok c) = some out := by
  cases hf : c.object_format with
  | Raw => exact ⟨((k, BuildResult.ok c), []), by simp [linkEntry, hf]⟩
  | ELF =>
    cases hev : ev (c.deploy_identifier, c.deploy_build)
        (c.runtime_identifier, c.runtime_build) sy with
    | error e =>
      exact ⟨((k, BuildResult.ok c), [OutputError.new_error e]),
        by simp [linkEntry, hf, hev]⟩
    | ok t =>
      obtain ⟨d, r, fmt⟩ := t
      exact ⟨((k, BuildResult.ok
          ⟨c.name, c.deploy_identifier, c.runtime_identifier, d, r, fmt⟩), []),
        by simp [linkEntry, hf, hev]⟩

/-- The link loop panics whenever any entry of the results map is a terminal
error. -/
lemma linkResults_err_none (ev : EvmLinker) (sy : LinkerSymbols) :
    ∀ rs : List (String × BuildResult),
      (∃ p ∈ rs, ∃ e, p.2 = BuildResult.err e) → linkResults ev sy rs = none := by
  intro rs
  induction rs with
  | nil => rintro ⟨p, hp, _⟩; cases hp
  | cons q rest ih =>
    rintro ⟨p, hp, e, he⟩
    obtain ⟨k, r⟩ := q
    rcases List.mem_cons.mp hp with h | h
    · subst h
      simp only at he
      subst he
      simp [linkResults, linkEntry]
    · have hrest := ih ⟨p, h, e, he⟩
      cases r with
      | err e2 => simp [linkResults, linkEntry]
      | ok c =>
        obtain ⟨out, hout⟩ := linkEntry_ok_some ev sy k c
        obtain ⟨q2, ms1⟩ := out
        simp [linkResults, hout, hrest]

/-- The link loop returns normally whenever every entry of the results map is
an artifact. -/
lemma linkResults_ok_some (ev : EvmLinker) (sy : LinkerSymbols) :
    ∀ rs : List (String × BuildResult),
      (∀ p ∈ rs, ∃ c, p.2 = BuildResult.ok c) →
      ∃ out, linkResults ev sy rs = some out := by
  intro rs
  induction rs with
  | nil => exact fun _ => ⟨([], []), rfl⟩
  | cons q rest ih =>
    intro h
    obtain ⟨k, r⟩ := q
    obtain ⟨c, hc⟩ := h (k, r) (List.mem_cons_self _ _)
    simp only at hc
    subst hc
    obtain ⟨out1, hout1⟩ := linkEntry_ok_some ev sy k c
    obtain ⟨q2, ms1⟩ := out1
    obtain ⟨out2, hout2⟩ := ih fun p hp => h p (List.mem_cons_of_mem _ hp)
    obtain ⟨rs2, ms2⟩ := out2
    exact ⟨(q2 :: rs2, ms1 ++ ms2), by simp [linkResults, hout1, hout2]⟩

/-- Pointwise shape of a successful link pass: keys are preserved, and any
artifact whose object format is not ELF comes out identical to how it went
in. -/
lemma linkResults_forall2 (ev : EvmLinker) (sy : LinkerSymbols) :
    ∀ rs rs2 ms, linkResults ev sy rs = some (rs2, ms) →
      List.Forall₂
        (fun p q => p.1 = q.1 ∧
          ∀ c, p.2 = BuildResult.ok c → c.object_format ≠ ObjectFormat.ELF → q = p)
        rs rs2 := by
  intro rs
  induction rs with
  | nil =>
    intro rs2 ms h
    simp only [linkResults, Option.some.injEq, Prod.mk.injEq] at h
    rw [← h.1]
    exact List.Forall₂.nil
  | cons q rest ih =>
    intro rs2 ms h
    obtain ⟨k, r⟩ := q
    cases r with
    | err e => simp [linkResults, linkEntry] at h
    | ok c =>
      have step : ∃ q2 ms1,
          linkEntry ev sy k (BuildResult.ok c) = some ((k, q2), ms1)
          ∧ ∀ c0, BuildResult.ok c = BuildResult.ok c0 →
              c0.object_format ≠ ObjectFormat.ELF → q2 = BuildResult.ok c := by
        cases hf : c.object_format with
        | Raw =>
          exact ⟨BuildResult.ok c, [], by simp [linkEntry, hf], fun _ _ _ => rfl⟩
        | ELF =>
          cases hev : ev (c.deploy_identifier, c.deploy_build)
              (c.runtime_identifier, c.runtime_build) sy with
          | error e =>
            refine ⟨BuildResult.ok c, [OutputError.new_error e],
              by simp [linkEntry, hf, hev], fun _ _ _ => rfl⟩
          | ok t =>
            obtain ⟨d, rr, fmt⟩ := t
            refine ⟨BuildResult.ok
                ⟨c.name, c.deploy_identifier, c.runtime_identifier, d, rr, fmt⟩, [],
              by simp [linkEntry, hf, hev], fun c0 hc0 hne => ?_⟩
            exfalso
            apply hne
            rw [← BuildResult.ok.inj hc0, hf]
      obtain ⟨q2, ms1, hle, hq2⟩ := step
      simp only [linkResults, hle] at h
      cases hrest : linkResults ev sy rest with
      | none => rw [hrest] at h; simp at h
      | some out =>
        obtain ⟨rs3, ms3⟩ := out
        rw [hrest] at h
        simp only [Option.some.injEq, Prod.mk.injEq] at h
        rw [← h.1]
        refine List.Forall₂.cons ⟨rfl, fun c0 hc0 hne => ?_⟩ (ih rs3 ms3 hrest)
        have := hq2 c0 (by simpa using hc0) hne
        rw [this]

/-- The link loop distributes over concatenation of the results map. -/
lemma linkResults_append (ev : EvmLinker) (sy : LinkerSymbols) :
    ∀ xs ys, linkResults ev sy (xs ++ ys) =
      match linkResults ev sy xs with
      | none => none
      | some (as2, m1) =>
        match linkResults ev sy ys with
        | none => none
        | some (bs2, m2) => some (as2 ++ bs2, m1 ++ m2) := by
  intro xs ys
  induction xs with
  | nil =>
    simp only [List.nil_append, linkResults]
    cases h : linkResults ev sy ys with
    | none => rfl
    | some out =>
      obtain ⟨bs2, m2⟩ := out
      simp
  | cons q rest ih =>
    obtain ⟨k, r⟩ := q
    simp only [List.cons_append, linkResults]
    cases hle : linkEntry ev sy k r with
    | none => rfl
    | some out =>
      obtain ⟨q2, ms1⟩ := out
      rw [List.append_eq, ih]
      cases h1 : linkResults ev sy rest with
      | none => rfl
      | some out1 =>
        obtain ⟨rs1, m1⟩ := out1
        cases h2 : linkResults ev sy ys with
        | none => rfl
        | some out2 =>
          obtain ⟨rs2, m2⟩ := out2
          simp [List.append_assoc]

/-- A linker stub used as the concrete external linker in witnesses: it fails
on every input. -/
def evStub : EvmLinker := fun _ _ _ => Except.error "stub"

/-- A concrete already-linked artifact (object format Raw, the spec's
Final). -/
def cRawK : Contract :=
  ⟨⟨"K.sol", some "K", "K.sol:K"⟩, "K.sol:K.0", "K.sol:K.1", [0], [1],
   ObjectFormat.Raw⟩

/-- A concrete unlinked artifact (object format ELF, the spec's Unlinked). -/
def cElfA : Contract :=
  ⟨⟨"A.sol", some "A", "A.sol:A"⟩, "A.sol:A.0", "A.sol:A.1", [2], [3],
   ObjectFormat.ELF⟩

/-- A concrete build holding one terminal-error entry. -/
def bC1err : Build :=
  ⟨[("A.sol:A", BuildResult.err ⟨"error", "compilation failed"⟩)], []⟩

/-- A concrete build holding one already-linked artifact. -/
def bC1ok : Build := ⟨[("K.sol:K", BuildResult.ok cRawK)], []⟩

/-- Claim C1 counterexample: on a build whose results map contains a terminal
error entry, `link()` does not return normally and does not skip the entry: it
panics (the `expect("Cannot link a project with errors")`, modelled as
`none`). -/
theorem c1_counterexample :
    bC1err.results = [("A.sol:A", BuildResult.err ⟨"error", "compilation failed"⟩)]
    ∧ Build.link evStub [] bC1err = none :=
  ⟨rfl, rfl⟩

/-- Claim C1 (amended): `link()` returns normally only on builds whose entries
are all artifacts; there it links exactly the artifacts with object format
ELF (Unlinked) and leaves every other artifact untouched. On a build with a
terminal error entry it panics instead of skipping the entry. -/
theorem c1_link_requires_all_artifacts (ev : EvmLinker) (sy : LinkerSymbols)
    (b : Build) (h : ∀ p ∈ b.results, ∃ c, p.2 = BuildResult.ok c) :
    ∃ b2, Build.link ev sy b = some b2 ∧
      List.Forall₂
        (fun p q => p.1 = q.1 ∧
          ∀ c, p.2 = BuildResult.ok c → c.object_format ≠ ObjectFormat.ELF → q = p)
        b.results b2.results := by
  obtain ⟨out, hout⟩ := linkResults_ok_some ev sy b.results h
  obtain ⟨rs, ms⟩ := out
  refine ⟨⟨rs, b.messages ++ ms⟩, ?_, ?_⟩
  · unfold Build.link
    rw [hout]
  · exact linkResults_forall2 ev sy b.results rs ms hout

/-- Claim C1 witness: the amended statement applied to a concrete all-artifact
build. -/
theorem c1_witness :
    ∃ b2, Build.link evStub [] bC1ok = some b2 ∧
      List.Forall₂
        (fun p q => p.1 = q.1 ∧
          ∀ c, p.2 = BuildResult.ok c → c.object_format ≠ ObjectFormat.ELF → q = p)
        bC1ok.results b2.results :=
  c1_link_requires_all_artifacts evStub [] bC1ok (by
    intro p hp
    simp only [bC1ok, List.mem_singleton] at hp
    subst hp
    exact ⟨cRawK, rfl⟩)

/-- Claim C6: every artifact whose object format is already Raw (the spec's
Final) before `link()` comes out of a normally-returning `link()` call with
identical bytes and format, at the same key and position. -/
theorem c6_final_artifacts_untouched (ev : EvmLinker) (sy : LinkerSymbols)
    (b b2 : Build) (h : Build.link ev sy b = some b2) :
    List.Forall₂
      (fun p q => p.1 = q.1 ∧
        ∀ c, p.2 = BuildResult.ok c → c.object_format = ObjectFormat.Raw → q = p)
      b.results b2.results := by
  unfold Build.link at h
  cases hr : linkResults ev sy b.results with
  | none => rw [hr] at h; cases h
  | some out =>
    obtain ⟨rs, ms⟩ := out
    rw [hr] at h
    simp only [Option.some.injEq] at h
    have hres : b2.results = rs := by rw [← h]
    rw [hres]
    refine (linkResults_forall2 ev sy b.results rs ms hr).imp ?_
    intro p q hpq
    exact ⟨hpq.1, fun c hc hraw => hpq.2 c hc (by simp [hraw])⟩

/-- A concrete build holding one Raw artifact and one info message. -/
def bC6 : Build := ⟨[("K.sol:K", BuildResult.ok cRawK)], [⟨"info", "note"⟩]⟩

/-- Claim C6 witness: the theorem applied to a concrete build whose only
artifact is already final. -/
theorem c6_witness :
    List.Forall₂
      (fun p q => p.1 = q.1 ∧
        ∀ c, p.2 = BuildResult.ok c → c.object_format = ObjectFormat.Raw → q = p)
      bC6.results
      (Build.mk [("K.sol:K", BuildResult.ok cRawK)] [⟨"info", "note"⟩]).results :=
  c6_final_artifacts_untouched evStub [] bC6
    (Build.mk [("K.sol:K", BuildResult.ok cRawK)] [⟨"info", "note"⟩]) (by rfl)

/-- Claim C5: when the external linker fails on an Unlinked (ELF) artifact,
a normally-returning `link()` leaves that artifact's bytes and object format
unchanged in place, appends exactly one severity-error auxiliary diagnostic
for it, and still processes every artifact before and after it. -/
theorem c5_link_failure_appends_one_error (ev : EvmLinker) (sy : LinkerSymbols)
    (pre post : List (String × BuildResult)) (k : String) (c : Contract)
    (e : String) (msgs : List OutputError) (b2 : Build)
    (hfmt : c.object_format = ObjectFormat.ELF)
    (hfail : ev (c.deploy_identifier, c.deploy_build)
        (c.runtime_identifier, c.runtime_build) sy = Except.error e)
    (hlink : Build.link ev sy
        ⟨pre ++ (k, BuildResult.ok c) :: post, msgs⟩ = some b2) :
    (OutputError.new_error e).severity = "error"
    ∧ ∃ pre2 ms1 post2 ms2,
        linkResults ev sy pre = some (pre2, ms1)
        ∧ linkResults ev sy post = some (post2, ms2)
        ∧ b2.results = pre2 ++ (k, BuildResult.ok c) :: post2
        ∧ b2.messages = msgs ++ ms1 ++ OutputError.new_error e :: ms2 := by
  refine ⟨rfl, ?_⟩
  unfold Build.link at hlink
  simp only at hlink
  rw [linkResults_append ev sy pre ((k, BuildResult.ok c) :: post)] at hlink
  have hle : linkEntry ev sy k (BuildResult.ok c)
      = some ((k, BuildResult.ok c), [OutputError.new_error e]) := by
    simp [linkEntry, hfmt, hfail]
  cases hpre : linkResults ev sy pre with
  | none => rw [hpre] at hlink; simp at hlink
  | some out1 =>
    obtain ⟨pre2, ms1⟩ := out1
    rw [hpre] at hlink
    simp only [linkResults, hle] at hlink
    cases hpost : linkResults ev sy post with
    | none => rw [hpost] at hlink; simp at hlink
    | some out2 =>
      obtain ⟨post2, ms2⟩ := out2
      rw [hpost] at hlink
      simp only [Option.some.injEq] at hlink
      refine ⟨pre2, ms1, post2, ms2, rfl, rfl, ?_, ?_⟩
      · rw [← hlink]
      · rw [← hlink]
        simp [List.append_assoc]

/-- Claim C5 witness: the theorem applied to a concrete build where the stub
linker fails on the single ELF artifact while a Raw artifact follows it. -/
theorem c5_witness :
    (OutputError.new_error "stub").severity = "error"
    ∧ ∃ pre2 ms1 post2 ms2,
        linkResults evStub [] [] = some (pre2, ms1)
        ∧ linkResults evStub [] [("K.sol:K", BuildResult.ok cRawK)]
            = some (post2, ms2)
        ∧ (Build.mk
            [("A.sol:A", BuildResult.ok cElfA), ("K.sol:K", BuildResult.ok cRawK)]
            [OutputError.new_error "stub"]).results
            = pre2 ++ ("A.sol:A", BuildResult.ok cElfA) :: post2
        ∧ (Build.mk
            [("A.sol:A", BuildResult.ok cElfA), ("K.sol:K", BuildResult.ok cRawK)]
            [OutputError.new_error "stub"]).messages
            = [] ++ ms1 ++ OutputError.new_error "stub" :: ms2 :=
  c5_link_failure_appends_one_error evStub [] [] [("K.sol:K", BuildResult.ok cRawK)]
    "A.sol:A" cElfA "stub" []
    (Build.mk
      [("A.sol:A", BuildResult.ok cElfA), ("K.sol:K", BuildResult.ok cRawK)]
      [OutputError.new_error "stub"])
    (by rfl) (by rfl) (by rfl)

/-- Splitting a list free of the separator yields the single whole piece. -/
lemma splitChar_not_mem (c : Char) :
    ∀ l : List Char, c ∉ l → splitChar c l = [l] := by
  intro l
  induction l with
  | nil => intro _; rfl
  | cons x xs ih =>
    intro h
    have hx : ¬ x = c := fun hxc => h (hxc ▸ List.mem_cons_self x xs)
    have hxs : c ∉ xs := fun hc => h (List.mem_cons_of_mem x hc)
    simp [splitChar, hx, ih hxs]

/-- Splitting peels off a separator-free prefix as the first piece. -/
lemma splitChar_append_cons (c : Char) :
    ∀ p rest : List Char, c ∉ p →
      splitChar c (p ++ c :: rest) = p :: splitChar c rest := by
  intro p
  induction p with
  | nil => intro rest _; simp [splitChar]
  | cons x xs ih =>
    intro rest h
    have hx : ¬ x = c := fun hxc => h (hxc ▸ List.mem_cons_self x xs)
    have hxs : c ∉ xs := fun hc => h (List.mem_cons_of_mem x hc)
    simp [splitChar, hx, ih rest hxs]

/-- The empty filesystem: nothing exists, the working directory is the
root. -/
def fs0 : FS := ⟨[], fun _ => false⟩

/-- Claim C3 counterexample: for the key "contracts/Foo.sol:Foo" on a
filesystem where its path part does not exist, the normalization step does
not succeed textually: the external normalize fails and
`normalize_full_path` hits the `expect("Path normalization error")` panic,
modelled as `none`. -/
theorem c3_counterexample :
    fs0.present (absResolve fs0 "contracts/Foo.sol") = false
    ∧ normalize_full_path fs0 "contracts/Foo.sol:Foo" = none :=
  ⟨rfl, rfl⟩

/-- Claim C3 (amended): normalization of a `path:name` key resolves `.`/`..`
segments and separator differences purely textually, but only succeeds when
the resolved path part exists on the filesystem, returning
`normalized_path + ":" + name_part`; when the path part does not exist, the
external normalize fails and `normalize_full_path` panics instead of
returning. -/
theorem c3_path_part_must_exist (fs : FS) (key : String) (p n : List Char)
    (r : List (List Char))
    (hsplit : splitChar ':' key.data = p :: n :: r) :
    (fs.present (absResolve fs (String.mk p)) = true →
      normalize_full_path fs key
        = some (renderAbs (absResolve fs (String.mk p)) ++ ":" ++ String.mk n))
    ∧ (fs.present (absResolve fs (String.mk p)) = false →
      normalize_full_path fs key = none) := by
  constructor
  · intro h
    unfold normalize_full_path
    rw [hsplit]
    simp [normpathNormalize, h]
  · intro h
    unfold normalize_full_path
    rw [hsplit]
    simp [normpathNormalize, h]

/-- A one-file filesystem used to witness textual `.`/`..` resolution. -/
def fsW : FS := ⟨["w"], fun segs => segs == ["w", "a", "Foo.sol"]⟩

/-- Claim C3 witness: the amended statement applied to a key whose path part
contains `.` and `..` segments and exists after resolution. -/
theorem c3_witness :
    normalize_full_path fsW "b/../a/./Foo.sol:Foo" = some "/w/a/Foo.sol:Foo" := by
  have h := (c3_path_part_must_exist fsW "b/../a/./Foo.sol:Foo"
      "b/../a/./Foo.sol".data "Foo".data [] (by decide)).1 (by decide)
  exact h.trans (by decide)

/-- Claim C10: the key normalization keeps only the first two colon-separated
segments: every character after the second colon is dropped, so keys differing
only there normalize identically, and the normalized result is determined by
the path part and the first name segment alone; a key without any colon makes
normalization panic. -/
theorem c10_normalization_truncates (fs : FS) (p n r1 r2 : List Char)
    (hp : ':' ∉ p) (hn : ':' ∉ n) :
    normalize_full_path fs (String.mk (p ++ (':' :: (n ++ (':' :: r1)))))
      = normalize_full_path fs (String.mk (p ++ (':' :: (n ++ (':' :: r2)))))
    ∧ normalize_full_path fs (String.mk (p ++ (':' :: (n ++ (':' :: r1)))))
      = (match normpathNormalize fs (String.mk p) with
         | none => none
         | some q => some (q ++ ":" ++ String.mk n))
    ∧ ∀ key : String, ':' ∉ key.data → normalize_full_path fs key = none := by
  have hsplit : ∀ r : List Char,
      splitChar ':' (p ++ (':' :: (n ++ (':' :: r)))) = p :: n :: splitChar ':' r := by
    intro r
    rw [splitChar_append_cons ':' p (n ++ (':' :: r)) hp,
      splitChar_append_cons ':' n r hn]
  refine ⟨?_, ?_, ?_⟩
  · unfold normalize_full_path
    rw [hsplit r1, hsplit r2]
  · unfold normalize_full_path
    rw [hsplit r1]
  · intro key hkey
    unfold normalize_full_path
    rw [splitChar_not_mem ':' key.data hkey]

/-- Claim C10 witness: the theorem applied to two concrete keys that differ
only after their second colon, and to a colon-free key. -/
theorem c10_witness :
    normalize_full_path fs0 (String.mk (['a'] ++ (':' :: (['B'] ++ (':' :: ['c'])))))
      = normalize_full_path fs0
          (String.mk (['a'] ++ (':' :: (['B'] ++ (':' :: ['d', 'e'])))))
    ∧ normalize_full_path fs0 "nocolon" = none := by
  have h := c10_normalization_truncates fs0 ['a'] ['B'] ['c'] ['d', 'e']
    (by decide) (by decide)
  exact ⟨h.1, h.2.2 "nocolon" (by decide)⟩

/-- When every key before some entry fails the suffix match (with all
normalizations defined) and the entry's key matches, the in-order search
updates exactly that entry in place. -/
lemma cmu_found (fs : FS) (fp : String) (filled : CJContract) (nfp : String)
    (hfp : normalize_full_path fs fp = some nfp) :
    ∀ (pre : List (String × CJContract)) (key : String) (entry : CJContract)
      (post : List (String × CJContract)) (nkey : String),
      (∀ q ∈ pre, ∃ njp, normalize_full_path fs q.1 = some njp
        ∧ strEndsWith nfp njp = false) →
      normalize_full_path fs key = some nkey →
      strEndsWith nfp nkey = true →
      combinedMatchUpdate fs fp filled (pre ++ (key, entry) :: post)
        = some (some (pre ++ (key, filled) :: post)) := by
  intro pre
  induction pre with
  | nil =>
    intro key entry post nkey _ hkey hm
    simp [combinedMatchUpdate, hfp, hkey, hm]
  | cons q rest ih =>
    intro key entry post nkey hpre hkey hm
    obtain ⟨jp, en⟩ := q
    obtain ⟨njp, h1, h2⟩ := hpre (jp, en) (List.mem_cons_self _ _)
    have hrec := ih key entry post nkey
      (fun q hq => hpre q (List.mem_cons_of_mem _ hq)) hkey hm
    simp only at h1
    simp [combinedMatchUpdate, hfp, h1, h2, hrec]

/-- When no existing key matches (with all normalizations defined), the
in-order search reports no match without panicking. -/
lemma cmu_nomatch (fs : FS) (fp : String) (filled : CJContract) (nfp : String)
    (hfp : normalize_full_path fs fp = some nfp) :
    ∀ doc : List (String × CJContract),
      (∀ q ∈ doc, ∃ njp, normalize_full_path fs q.1 = some njp
        ∧ strEndsWith nfp njp = false) →
      combinedMatchUpdate fs fp filled doc = some none := by
  intro doc
  induction doc with
  | nil => intro _; rfl
  | cons q rest ih =>
    intro h
    obtain ⟨jp, en⟩ := q
    obtain ⟨njp, h1, h2⟩ := h (jp, en) (List.mem_cons_self _ _)
    have hrec := ih fun q hq => h q (List.mem_cons_of_mem _ hq)
    simp only at h1
    simp [combinedMatchUpdate, hfp, h1, h2, hrec]

/-- Claim C4: in combined-JSON emission the target entry for a contract is the
first existing document key, in document order, whose normalized form is a
string suffix of the contract's normalized full path - that entry is updated
in place and every other entry is untouched; when no existing key matches, a
new entry keyed by the contract's own unnormalized `full_path` is appended. -/
theorem c4_combined_json_suffix_match (fs : FS) (c : Contract) (k : String)
    (nfp : String) (hfp : normalize_full_path fs c.name.full_path = some nfp) :
    (∀ (pre : List (String × CJContract)) (key : String) (entry : CJContract)
        (post : List (String × CJContract)) (nkey : String),
      (∀ q ∈ pre, ∃ njp, normalize_full_path fs q.1 = some njp
        ∧ strEndsWith nfp njp = false) →
      normalize_full_path fs key = some nkey →
      strEndsWith nfp nkey = true →
      Build.write_to_combined_json fs ⟨[(k, BuildResult.ok c)], []⟩
          (pre ++ (key, entry) :: post)
        = some ([], pre ++ (key, CJContract.mk (some c.name.full_path)) :: post))
    ∧ (∀ doc : List (String × CJContract),
      (∀ q ∈ doc, ∃ njp, normalize_full_path fs q.1 = some njp
        ∧ strEndsWith nfp njp = false) →
      Build.write_to_combined_json fs ⟨[(k, BuildResult.ok c)], []⟩ doc
        = some ([], doc ++ [(c.name.full_path,
            CJContract.mk (some c.name.full_path))])) := by
  constructor
  · intro pre key entry post nkey hpre hkey hm
    have hcmu := cmu_found fs c.name.full_path
      (CJContract.mk (some c.name.full_path)) nfp hfp pre key entry post nkey
      hpre hkey hm
    simp [Build.write_to_combined_json, Build.take_warnings, Build.errors,
      combinedProcess, hcmu]
  · intro doc hall
    have hcmu := cmu_nomatch fs c.name.full_path
      (CJContract.mk (some c.name.full_path)) nfp hfp doc hall
    simp [Build.write_to_combined_json, Build.take_warnings, Build.errors,
      combinedProcess, hcmu]

/-- A filesystem rooted at the working directory where both `Foo.sol` and
`contracts/Foo.sol` exist. -/
def fsF : FS :=
  ⟨[], fun segs => segs == ["contracts", "Foo.sol"] || segs == ["Foo.sol"]⟩

/-- The concrete contract of the spec's suffix-match scenario. -/
def cFoo : Contract :=
  ⟨⟨"contracts/Foo.sol", some "Foo", "contracts/Foo.sol:Foo"⟩,
   "contracts/Foo.sol:Foo.0", "contracts/Foo.sol:Foo.1", [4], [5],
   ObjectFormat.ELF⟩

/-- Claim C4 witness: the spec's scenario - existing key "Foo.sol:Foo" and a
contract with full path "contracts/Foo.sol:Foo" - reuses the existing entry
instead of creating a new one. -/
theorem c4_witness :
    Build.write_to_combined_json fsF
        ⟨[("contracts/Foo.sol:Foo", BuildResult.ok cFoo)], []⟩
        [("Foo.sol:Foo", CJContract.mk none)]
      = some ([], [("Foo.sol:Foo", CJContract.mk (some "contracts/Foo.sol:Foo"))]) := by
  have h := (c4_combined_json_suffix_match fsF cFoo "contracts/Foo.sol:Foo"
      "/contracts/Foo.sol:Foo" (by decide)).1
    [] "Foo.sol:Foo" (CJContract.mk none) [] "/Foo.sol:Foo"
    (fun q hq => absurd hq (List.not_mem_nil q))
    (by decide) (by decide)
  simpa [cFoo] using h

/-- Claim C2 (amended): on a build with a non-empty `errors()`, the terminal,
directory and combined-JSON emitters first surface every severity-warning
auxiliary message (drained via `take_warnings`) and then terminate fatally
reporting the errors, with no artifact written and the combined document left
untouched; the per-file standard JSON emitter runs neither step - it returns
normally with an empty event trace, merging errors into the document
instead. -/
theorem c2_warn_then_fail_fast (b : Build) (m a bin ov : Bool) (dir : String)
    (fs : FS) (doc : List (String × CJContract)) (sj : StandardJsonOutput)
    (v : Option (String × String)) (h : ¬ b.errors = []) :
    b.write_to_terminal m a bin
      = some ((b.messages.filter fun x => x.severity == "warning").map Event.warn
          ++ [Event.fatal b.errors])
    ∧ b.write_to_directory dir m a bin ov
      = some ((b.messages.filter fun x => x.severity == "warning").map Event.warn
          ++ [Event.fatal b.errors])
    ∧ b.write_to_combined_json fs doc
      = some ((b.messages.filter fun x => x.severity == "warning").map Event.warn
          ++ [Event.fatal b.errors], doc)
    ∧ ∃ sj2, b.write_to_standard_json sj v = some ([], sj2) := by
  have herr2 : (Build.mk b.results
      (b.messages.filter fun m => !(m.severity == "warning"))).errors = b.errors :=
    errors_after_take b
  refine ⟨?_, ?_, ?_, ⟨_, rfl⟩⟩
  · unfold Build.write_to_terminal
    simp [Build.take_warnings, herr2, h]
  · unfold Build.write_to_directory
    simp [Build.take_warnings, herr2, h]
  · unfold Build.write_to_combined_json
    simp [Build.take_warnings, herr2, h]

/-- A concrete build with one failed contract and one auxiliary warning. -/
def bC2 : Build :=
  ⟨[("B.sol:B", BuildResult.err ⟨"error", "lowering failed"⟩)],
   [⟨"warning", "w1"⟩]⟩

/-- Claim C2 counterexample: the per-file standard JSON emission mode does not
run the warn-then-fail-fast sequence. On a build with a non-empty `errors()`
and a pending warning it returns normally with an empty event trace - no
warning is surfaced, no fatal outcome occurs - and the error is merged into
the document's own error list instead. -/
theorem c2_counterexample :
    bC2.errors = [⟨"error", "lowering failed"⟩]
    ∧ Build.write_to_standard_json bC2 ⟨[], [], none, none⟩ none
        = some ([], ⟨[], [⟨"error", "lowering failed"⟩], none, none⟩) :=
  ⟨rfl, rfl⟩

/-- Claim C2 witness: the amended statement applied to the concrete build
`bC2`. -/
theorem c2_witness :
    Build.write_to_terminal bC2 false false false
      = some ((bC2.messages.filter fun x => x.severity == "warning").map Event.warn
          ++ [Event.fatal bC2.errors])
    ∧ Build.write_to_directory bC2 "out" false false false false
      = some ((bC2.messages.filter fun x => x.severity == "warning").map Event.warn
          ++ [Event.fatal bC2.errors])
    ∧ Build.write_to_combined_json fs0 bC2 []
      = some ((bC2.messages.filter fun x => x.severity == "warning").map Event.warn
          ++ [Event.fatal bC2.errors], [])
    ∧ ∃ sj2, Build.write_to_standard_json bC2 ⟨[], [], none, none⟩ none
        = some ([], sj2) :=
  c2_warn_then_fail_fast bC2 false false false false "out" fs0 []
    ⟨[], [], none, none⟩ none (by decide)

/-- Claim C9: lowering an identifier expression resolves the name against the
current function's lexical environment; on success it emits exactly one load
from the resolved slot and yields the loaded value; when no enclosing scope
binds the name it fails with the located `Undeclared variable` error carrying
the reference's source location and the identifier's name, yielding no
value. -/
theorem c9_identifier_lowering (ext : ExternalLowering) (ctx : Ctx)
    (id : Identifier) :
    (∀ ptr, ctx.current_function.get_stack_pointer id.inner = some ptr →
      Expression.into_llvm ext ctx (Expression.identifier id)
        = Except.ok (some ctx.next_value,
            ⟨ctx.current_function,
             ctx.instructions ++ [IRInstr.load ptr id.inner ctx.next_value],
             ctx.next_value + 1⟩))
    ∧ ((∀ scope ∈ ctx.current_function.stack, List.lookup id.inner scope = none) →
      Expression.into_llvm ext ctx (Expression.identifier id)
        = Except.error (id.location ++ " Undeclared variable `" ++ id.inner ++ "`")) := by
  constructor
  · intro ptr hptr
    simp [Expression.into_llvm, hptr, Ctx.build_load]
  · intro hnone
    have h : ctx.current_function.get_stack_pointer id.inner = none := by
      unfold FunctionCtx.get_stack_pointer
      exact List.findSome?_eq_none.mpr hnone
    simp [Expression.into_llvm, h]

/-- Stub lowerings for the external literal and function-call modules. -/
def extStub : ExternalLowering :=
  ⟨fun _ _ => Except.error "unused", fun _ _ => Except.error "unused"⟩

/-- A concrete lowering context whose single scope binds only `x`. -/
def ctx9 : Ctx := ⟨⟨[[("x", 5)]]⟩, [], 7⟩

/-- Claim C9 witness: the theorem applied to a bound identifier (a load is
emitted and its value yielded) and to an unbound one (the located error names
the identifier). -/
theorem c9_witness :
    Expression.into_llvm extStub ctx9 (Expression.identifier ⟨"5:3", "x"⟩)
      = Except.ok (some 7, ⟨⟨[[("x", 5)]]⟩, [IRInstr.load 5 "x" 7], 8⟩)
    ∧ Expression.into_llvm extStub ctx9 (Expression.identifier ⟨"6:9", "y"⟩)
      = Except.error "6:9 Undeclared variable `y`" := by
  constructor
  · have h := (c9_identifier_lowering extStub ctx9 ⟨"5:3", "x"⟩).1 5 (by decide)
    simpa [ctx9] using h
  · have h := (c9_identifier_lowering extStub ctx9 ⟨"6:9", "y"⟩).2 (by decide)
    have hs : ("6:9" ++ " Undeclared variable `" ++ "y" ++ "`" : String)
        = "6:9 Undeclared variable `y`" := by decide
    simpa [hs] using h

/-- A concrete build with one artifact and one warning message. -/
def bC7 : Build := ⟨[("G.sol:G", BuildResult.ok cRawK)], [⟨"warning", "w"⟩]⟩

/-- Claim C7 witness: the characterization applied to a concrete build whose
`errors()` is empty. -/
theorem c7_witness :
    bC7.errors =
      (bC7.results.filterMap fun p =>
        match p.2 with
        | BuildResult.err e => some e
        | BuildResult.ok _ => none)
      ++ bC7.messages.filter (fun m => m.severity == "error")
    ∧ (bC7.errors = [] ↔
        (∀ p ∈ bC7.results, ∃ c, p.2 = BuildResult.ok c)
        ∧ ∀ m ∈ bC7.messages, ¬ m.severity = "error") :=
  c7_errors_characterization bC7

/-- A concrete build carrying one message of each severity. -/
def bC8 : Build :=
  ⟨[], [⟨"warning", "w"⟩, ⟨"error", "e"⟩, ⟨"info", "i"⟩]⟩

/-- Claim C8 witness: the take_warnings contract applied to a concrete build
holding a warning, an error and an info message. -/
theorem c8_witness :
    (bC8.take_warnings).1 = bC8.messages.filter (fun m => m.severity == "warning")
    ∧ (∀ m ∈ (bC8.take_warnings).1, m.severity = "warning")
    ∧ (bC8.take_warnings).2.results = bC8.results
    ∧ (bC8.take_warnings).2.messages.filter (fun m => m.severity == "error")
        = bC8.messages.filter (fun m => m.severity == "error")
    ∧ (bC8.take_warnings).2.messages.filter (fun m => m.severity == "info")
        = bC8.messages.filter (fun m => m.severity == "info")
    ∧ ((bC8.take_warnings).2.take_warnings).1 = [] :=
  c8_take_warnings_spec bC8
